import Mathlib

/-!
Verification of the tsticker reconciliation engine against its specification.

The definitions below are a shallow embedding of the relevant parts of
`src/tsticker/cli.py` and `src/tsticker/core/create.py`:

* snapshot rotation (`backup_snapshot`),
* the three-way diff of `push_to_cloud` and the pull-side diff of
  `sync_index`,
* the integrity-tagged index file (`StickerPack`, `generate_lock_ns`,
  `validate_lock_ns`) with a concrete HMAC-SHA256,
* trace models of the push command pipeline (fetch, backup, guards,
  deletes, uploads, repairs).

Machine integers are modelled as `Nat` with explicit reduction modulo
`2 ^ 32` where the SHA-256 rounds overflow; fallible steps return
`Except`/`Option`; directory state is explicit association lists.
-/

namespace TSticker

/-! ### Snapshot rotation (`backup_snapshot`, cli.py lines 107-128)

A snapshot directory is modelled as the list of snapshot timestamps in
creation order (oldest first), which is the order `sorted(..., key=getmtime)`
produces for snapshots created at strictly increasing times. -/

/-- Loop `while len(snapshots) >= 4: snapshots.pop(0); rmtree(...)` from
`backup_snapshot`: repeatedly discard the oldest snapshot while at least
four exist. -/
def evictOldest (s : List Nat) : List Nat :=
  if h : s.length ≥ 4 then evictOldest s.tail else s
termination_by s.length
decreasing_by
  simp only [List.length_tail]
  omega

/-- The `backup_snapshot` routine: evict oldest snapshots down to at most
three, then create one new timestamp-named snapshot (`copytree`). -/
def backup_snapshot (s : List Nat) (t : Nat) : List Nat :=
  evictOldest s ++ [t]

theorem evictOldest_eq_drop (s : List Nat) : evictOldest s = s.drop (s.length - 3) := by
  unfold evictOldest
  by_cases h : s.length ≥ 4
  · rw [dif_pos h]
    have ht := evictOldest_eq_drop s.tail
    rw [ht]
    cases s with
    | nil => simp at h
    | cons a as =>
      simp only [List.tail_cons, List.length_cons]
      have h3 : as.length - 3 + 1 = as.length + 1 - 3 := by
        simp only [List.length_cons] at h
        omega
      simp [List.drop, ← h3]
  · rw [dif_neg h]
    have : s.length - 3 = 0 := by omega
    rw [this, List.drop_zero]
termination_by s.length
decreasing_by
  simp only [List.length_tail]
  omega

theorem backup_snapshot_length (s : List Nat) (t : Nat) :
    (backup_snapshot s t).length = min s.length 3 + 1 := by
  simp [backup_snapshot, evictOldest_eq_drop]
  omega

/-- C5: `backup_snapshot` first evicts the oldest snapshots while at least four
exist, keeping exactly the newest `min n 3`, then appends one fresh
timestamp-named snapshot; hence after any backup at most four snapshots exist,
and five successive backups starting from an empty snapshot directory leave
exactly the three newest priors plus the new one, evicted oldest-first. -/
theorem C5_snapshot_rotation :
    (∀ (s : List Nat) (t : Nat),
      backup_snapshot s t = s.drop (s.length - 3) ++ [t] ∧
      (backup_snapshot s t).length = min s.length 3 + 1 ∧
      (backup_snapshot s t).length ≤ 4) ∧
    (∀ t1 t2 t3 t4 t5 : Nat,
      backup_snapshot (backup_snapshot (backup_snapshot (backup_snapshot
        (backup_snapshot [] t1) t2) t3) t4) t5 = [t2, t3, t4, t5]) := by
  constructor
  · intro s t
    refine ⟨by rw [backup_snapshot, evictOldest_eq_drop], backup_snapshot_length s t, ?_⟩
    rw [backup_snapshot_length]
    omega
  · intro t1 t2 t3 t4 t5
    have h1 : ∀ s t, backup_snapshot s t = s.drop (s.length - 3) ++ [t] := by
      intro s t
      rw [backup_snapshot, evictOldest_eq_drop]
    simp [h1]

/-! ### The three-way push diff (`push_to_cloud`, cli.py lines 659-680)

The local directory after `delete_same_name_files` is a list of files with
pairwise distinct stems; the `local_files` dict is modelled as that list
keyed by `stem`.  The remote inventory (`cloud_sticker_set.stickers`) is a
list of stickers; the `cloud_files` dict is that list keyed by
`file_unique_id`. -/

/-- One remote sticker as used by the diff: `file_id` (the deletable remote
handle), `file_unique_id` (the content-stable diff key), `file_size`, `emoji`. -/
structure CloudSticker where
  file_id : String
  file_unique_id : String
  file_size : Nat
  emoji : String
deriving DecidableEq

/-- One local file as the diff sees it: its filename stem (the key of the
`local_files` dict) and its `stat().st_size`. -/
structure LocalFile where
  stem : String
  size : Nat
deriving DecidableEq

/-- Keys of the `local_files` dict (filename stems). -/
def localStems (ls : List LocalFile) : List String :=
  ls.map LocalFile.stem

/-- Keys of the `cloud_files` dict (`file_unique_id`). -/
def cloudIds (cs : List CloudSticker) : List String :=
  cs.map CloudSticker.file_unique_id

/-- Dict lookup `cloud_files[k]` (unique when ids are nodup). -/
def findCloud (cs : List CloudSticker) (k : String) : Option CloudSticker :=
  cs.find? (fun s => s.file_unique_id == k)

/-- The comprehension `[file_id for file_id in local_files if file_id not in
cloud_files]` of `push_to_cloud`. -/
def to_upload (ls : List LocalFile) (cs : List CloudSticker) : List String :=
  (localStems ls).filter (fun k => !((cloudIds cs).contains k))

/-- The cloud stickers selected by `[sticker.file_id for file_id, sticker in
cloud_files.items() if file_id not in local_files]`, before the projection to
`file_id`. -/
def deletedCloudItems (ls : List LocalFile) (cs : List CloudSticker) : List CloudSticker :=
  cs.filter (fun s => !((localStems ls).contains s.file_unique_id))

/-- The `to_delete` list of `push_to_cloud` (remote `file_id` handles). -/
def to_delete (ls : List LocalFile) (cs : List CloudSticker) : List String :=
  (deletedCloudItems ls cs).map CloudSticker.file_id

/-- The comprehension `[(uid, cloud_files[uid].file_id) for uid in local_files
if uid in cloud_files and local_files[uid].stat().st_size !=
cloud_files[uid].file_size]` of `push_to_cloud`. -/
def to_fix (ls : List LocalFile) (cs : List CloudSticker) : List (String × String) :=
  ls.filterMap (fun f =>
    match findCloud cs f.stem with
    | some s => if f.size ≠ s.file_size then some (f.stem, s.file_id) else none
    | none => none)

/-- Unique ids of the items scheduled for remote deletion. -/
def deletedIds (ls : List LocalFile) (cs : List CloudSticker) : List String :=
  (deletedCloudItems ls cs).map CloudSticker.file_unique_id

/-- Content keys of the items scheduled for repair. -/
def fixKeys (ls : List LocalFile) (cs : List CloudSticker) : List String :=
  (to_fix ls cs).map Prod.fst

/-- Size recorded for key `k` in the `local_files` dict, if present. -/
def localSizeOf (ls : List LocalFile) (k : String) : Option Nat :=
  (ls.find? (fun f => f.stem == k)).map LocalFile.size

/-- Size recorded for key `k` in the `cloud_files` dict, if present. -/
def cloudSizeOf (cs : List CloudSticker) (k : String) : Option Nat :=
  (findCloud cs k).map CloudSticker.file_size

/-- Classification "present in both inventories with equal byte size". -/
def bothSameSize (ls : List LocalFile) (cs : List CloudSticker) (k : String) : Prop :=
  k ∈ localStems ls ∧ k ∈ cloudIds cs ∧ localSizeOf ls k = cloudSizeOf cs k

theorem find?_key_eq {α : Type} (key : α → String) (l : List α)
    (hn : (l.map key).Nodup) (x : α) (hx : x ∈ l) :
    l.find? (fun y => key y == key x) = some x := by
  induction l with
  | nil => cases hx
  | cons a as ih =>
    simp only [List.map_cons, List.nodup_cons] at hn
    rcases List.mem_cons.mp hx with rfl | hmem
    · simp [List.find?]
    · have hne : key a ≠ key x := fun he => hn.1 (he ▸ List.mem_map_of_mem key hmem)
      rw [List.find?_cons_of_neg _ (by simpa using hne)]
      exact ih hn.2 hmem

theorem mem_to_upload_iff (ls : List LocalFile) (cs : List CloudSticker) (k : String) :
    k ∈ to_upload ls cs ↔ k ∈ localStems ls ∧ k ∉ cloudIds cs := by
  simp [to_upload, List.mem_filter]

theorem mem_deletedCloudItems_iff (ls : List LocalFile) (cs : List CloudSticker)
    (s : CloudSticker) :
    s ∈ deletedCloudItems ls cs ↔ s ∈ cs ∧ s.file_unique_id ∉ localStems ls := by
  simp [deletedCloudItems, List.mem_filter]

theorem mem_deletedIds_iff (ls : List LocalFile) (cs : List CloudSticker) (k : String) :
    k ∈ deletedIds ls cs ↔ k ∈ cloudIds cs ∧ k ∉ localStems ls := by
  simp only [deletedIds, List.mem_map]
  constructor
  · rintro ⟨s, hs, rfl⟩
    have := (mem_deletedCloudItems_iff ls cs s).mp hs
    exact ⟨List.mem_map_of_mem _ this.1, this.2⟩
  · rintro ⟨hkc, hkl⟩
    rcases List.mem_map.mp hkc with ⟨s, hs, rfl⟩
    exact ⟨s, (mem_deletedCloudItems_iff ls cs s).mpr ⟨hs, hkl⟩, rfl⟩

theorem localSizeOf_eq (ls : List LocalFile) (hl : (localStems ls).Nodup)
    (f : LocalFile) (hf : f ∈ ls) : localSizeOf ls f.stem = some f.size := by
  rw [localSizeOf, find?_key_eq LocalFile.stem ls hl f hf]
  rfl

theorem findCloud_mem (cs : List CloudSticker) (k : String) :
    k ∈ cloudIds cs ↔ ∃ s, findCloud cs k = some s ∧ s.file_unique_id = k := by
  constructor
  · intro hk
    rcases List.mem_map.mp hk with ⟨s, hs, rfl⟩
    cases hfind : findCloud cs s.file_unique_id with
    | none =>
      exfalso
      have := List.find?_eq_none.mp hfind s hs
      simp at this
    | some s0 =>
      exact ⟨s0, rfl, by simpa using List.find?_some hfind⟩
  · rintro ⟨s, hfind, rfl⟩
    exact List.mem_map_of_mem _ (List.mem_of_find?_eq_some hfind)

theorem mem_fixKeys_iff (ls : List LocalFile) (cs : List CloudSticker)
    (hl : (localStems ls).Nodup) (k : String) :
    k ∈ fixKeys ls cs ↔
      k ∈ localStems ls ∧ k ∈ cloudIds cs ∧ localSizeOf ls k ≠ cloudSizeOf cs k := by
  simp only [fixKeys, to_fix, List.mem_map, List.mem_filterMap]
  constructor
  · rintro ⟨⟨k0, fid⟩, ⟨f, hf, hg⟩, rfl⟩
    cases hfind : findCloud cs f.stem with
    | none => rw [hfind] at hg; cases hg
    | some s =>
      rw [hfind] at hg
      dsimp only at hg
      by_cases hsz : f.size ≠ s.file_size
      · rw [if_pos hsz] at hg
        cases hg
        refine ⟨List.mem_map_of_mem _ hf, ?_, ?_⟩
        · exact (findCloud_mem cs f.stem).mpr
            ⟨s, hfind, by simpa using List.find?_some hfind⟩
        · rw [localSizeOf_eq ls hl f hf, cloudSizeOf, hfind]
          simp only [Option.map_some', Option.map_some, ne_eq, Option.some.injEq]
          exact hsz
      · rw [if_neg hsz] at hg; cases hg
  · rintro ⟨hkl, hkc, hsz⟩
    rcases List.mem_map.mp hkl with ⟨f, hf, rfl⟩
    rcases (findCloud_mem cs f.stem).mp hkc with ⟨s, hfind, hsid⟩
    refine ⟨(f.stem, s.file_id), ⟨f, hf, ?_⟩, rfl⟩
    rw [hfind]
    dsimp only
    rw [localSizeOf_eq ls hl f hf, cloudSizeOf, hfind] at hsz
    simp only [Option.map_some', Option.map_some, ne_eq, Option.some.injEq] at hsz
    rw [if_pos hsz]

/-- C1: the push diff computes `to_upload` as exactly the local keys absent
from the remote inventory, `to_delete` as exactly the remote items whose
unique id is absent locally (projected to their `file_id`), and `to_fix` as
exactly the keys present in both whose byte size differs; the three lists are
pairwise disjoint on keys, and every key of either inventory falls in exactly
one of the four classes upload / delete / both-same-size / fix. -/
theorem C1_diff_partition (ls : List LocalFile) (cs : List CloudSticker)
    (hl : (localStems ls).Nodup) (hc : (cloudIds cs).Nodup) :
    (∀ k, k ∈ to_upload ls cs ↔ k ∈ localStems ls ∧ k ∉ cloudIds cs) ∧
    (∀ s, s ∈ deletedCloudItems ls cs ↔ s ∈ cs ∧ s.file_unique_id ∉ localStems ls) ∧
    to_delete ls cs = (deletedCloudItems ls cs).map CloudSticker.file_id ∧
    (∀ k, k ∈ fixKeys ls cs ↔
      k ∈ localStems ls ∧ k ∈ cloudIds cs ∧ localSizeOf ls k ≠ cloudSizeOf cs k) ∧
    (∀ k, ¬(k ∈ to_upload ls cs ∧ k ∈ deletedIds ls cs)) ∧
    (∀ k, ¬(k ∈ to_upload ls cs ∧ k ∈ fixKeys ls cs)) ∧
    (∀ k, ¬(k ∈ deletedIds ls cs ∧ k ∈ fixKeys ls cs)) ∧
    (∀ k, k ∈ localStems ls ∨ k ∈ cloudIds cs →
      (k ∈ to_upload ls cs ∧ k ∉ deletedIds ls cs ∧ ¬bothSameSize ls cs k ∧ k ∉ fixKeys ls cs) ∨
      (k ∉ to_upload ls cs ∧ k ∈ deletedIds ls cs ∧ ¬bothSameSize ls cs k ∧ k ∉ fixKeys ls cs) ∨
      (k ∉ to_upload ls cs ∧ k ∉ deletedIds ls cs ∧ bothSameSize ls cs k ∧ k ∉ fixKeys ls cs) ∨
      (k ∉ to_upload ls cs ∧ k ∉ deletedIds ls cs ∧ ¬bothSameSize ls cs k ∧ k ∈ fixKeys ls cs)) := by
  have hup := mem_to_upload_iff ls cs
  have hdel := mem_deletedIds_iff ls cs
  have hfix := mem_fixKeys_iff ls cs hl
  refine ⟨hup, mem_deletedCloudItems_iff ls cs, rfl, hfix, ?_, ?_, ?_, ?_⟩
  · intro k ⟨h1, h2⟩
    exact ((hdel k).mp h2).2 ((hup k).mp h1).1
  · intro k ⟨h1, h2⟩
    exact ((hup k).mp h1).2 ((hfix k).mp h2).2.1
  · intro k ⟨h1, h2⟩
    exact ((hdel k).mp h1).2 ((hfix k).mp h2).1
  · intro k hk
    by_cases hkl : k ∈ localStems ls
    · by_cases hkc : k ∈ cloudIds cs
      · by_cases hsz : localSizeOf ls k = cloudSizeOf cs k
        · refine Or.inr (Or.inr (Or.inl ⟨?_, ?_, ⟨hkl, hkc, hsz⟩, ?_⟩))
          · exact fun h => ((hup k).mp h).2 hkc
          · exact fun h => ((hdel k).mp h).2 hkl
          · exact fun h => ((hfix k).mp h).2.2 hsz
        · refine Or.inr (Or.inr (Or.inr ⟨?_, ?_, ?_, (hfix k).mpr ⟨hkl, hkc, hsz⟩⟩))
          · exact fun h => ((hup k).mp h).2 hkc
          · exact fun h => ((hdel k).mp h).2 hkl
          · exact fun h => hsz h.2.2
      · refine Or.inl ⟨(hup k).mpr ⟨hkl, hkc⟩, ?_, ?_, ?_⟩
        · exact fun h => hkc ((hdel k).mp h).1
        · exact fun h => hkc h.2.1
        · exact fun h => hkc ((hfix k).mp h).2.1
    · rcases hk with h | hkc
      · exact absurd h hkl
      · refine Or.inr (Or.inl ⟨?_, (hdel k).mpr ⟨hkc, hkl⟩, ?_, ?_⟩)
        · exact fun h => hkl ((hup k).mp h).1
        · exact fun h => hkl h.1
        · exact fun h => hkl ((hfix k).mp h).1

/-! ### Trace model of the push pipeline (cli.py lines 585-822)

Remote calls issued by `push_to_cloud` and the `push` command are recorded
as a trace.  The external transcoder `create_sticker` is a parameter
`encode : String → Bool` (success per file stem); transport calls are
modelled on their normal path (per-item transport failures are caught and
logged by the code and do not change which calls are *issued* before them). -/

/-- One remote call of the push flow. `getFile` is the only read. -/
inductive RemoteOp where
  | setTitle (name title : String)
  | deleteSticker (file_id : String)
  | addSticker (name stem : String)
  | createSet (name : String) (count : Nat)
  | getFile (file_id : String)
deriving DecidableEq

/-- Whether a remote call mutates the remote collection. -/
def RemoteOp.isMutation : RemoteOp → Bool
  | .getFile _ => false
  | _ => true

/-- Inputs of the non-initial (`cloud_sticker_set` present) branch of
`push_to_cloud`. -/
structure PushState where
  localTitle : String
  packName : String
  ls : List LocalFile
  cloudTitle : String
  cs : List CloudSticker
deriving DecidableEq

/-- The `set_sticker_set_title` call, issued exactly when the local title
differs from the cloud title (cli.py lines 681-686). -/
def titleOps (st : PushState) : List RemoteOp :=
  if st.localTitle ≠ st.cloudTitle then [RemoteOp.setTitle st.packName st.localTitle] else []

/-- The upload loop (cli.py lines 715-738): `add_sticker_to_set` is issued
for an item exactly when `create_sticker` succeeded on it; an encoding
failure skips that one item and the loop continues. -/
def uploadOps (encode : String → Bool) (name : String)
    (ls : List LocalFile) (cs : List CloudSticker) : List RemoteOp :=
  (to_upload ls cs).filterMap
    (fun stem => if encode stem then some (RemoteOp.addSticker name stem) else none)

/-- The repair loop (cli.py lines 741-762): each `to_fix` item re-downloads
the canonical remote bytes via `get_file`. -/
def fixOps (ls : List LocalFile) (cs : List CloudSticker) : List RemoteOp :=
  (to_fix ls cs).map (fun p => RemoteOp.getFile p.2)

/-- The capacity guard `len(cloud_files) - len(to_delete) + len(to_upload) >
120` (cli.py line 693), in the exact integer arithmetic of the source. -/
def capacityExceeded (st : PushState) : Prop :=
  ((cloudIds st.cs).length : Int) - (to_delete st.ls st.cs).length
    + (to_upload st.ls st.cs).length > 120

instance (st : PushState) : Decidable (capacityExceeded st) := by
  unfold capacityExceeded; infer_instance

/-- Non-initial branch of `push_to_cloud`: title update, then the capacity
guard, then deletions, uploads and repairs.  Returns the trace of issued
remote calls and whether the push ran to completion (`False`/`None` returns
of the source are both "not completed"). -/
def incrementalPush (encode : String → Bool) (st : PushState) : List RemoteOp × Bool :=
  let tOps := titleOps st
  if capacityExceeded st then (tOps, false)
  else
    (tOps ++ (to_delete st.ls st.cs).map RemoteOp.deleteSticker
          ++ uploadOps encode st.packName st.ls st.cs
          ++ fixOps st.ls st.cs, true)

/-- The initial-creation encode loop (cli.py lines 617-630): process local
files in order, aborting the whole batch on the first encoding failure. -/
def buildStickers (encode : String → Bool) : List String → Option (List String)
  | [] => some []
  | f :: fs => if encode f then (buildStickers encode fs).map (f :: ·) else none

/-- Initial branch of `push_to_cloud` (`cloud_sticker_set is None`): encode
every local file, abort on a failure or when the batch is empty or exceeds
30, otherwise issue the single `create_new_sticker_set` call. -/
def initialPush (encode : String → Bool) (name : String) (stems : List String) :
    List RemoteOp × Bool :=
  match buildStickers encode stems with
  | none => ([], false)
  | some stickers =>
    if stickers.length > 30 then ([], false)
    else if stickers.length = 0 then ([], false)
    else ([RemoteOp.createSet name stickers.length], true)

/-- Dispatch of `push_to_cloud` on whether the remote collection exists. -/
def pushToCloudOps (encode : String → Bool) (localTitle packName : String)
    (ls : List LocalFile) : Option (String × List CloudSticker) → List RemoteOp × Bool
  | none => initialPush encode packName (localStems ls)
  | some (cloudTitle, cs) =>
      incrementalPush encode ⟨localTitle, packName, ls, cloudTitle, cs⟩

/-- Recursive check that `needle` starts `hay` (Python `str.startswith`). -/
def leadsWith : List Char → List Char → Bool
  | [], _ => true
  | _ :: _, [] => false
  | a :: as, b :: bs => a == b && leadsWith as bs

/-- Substring test, modelling the Python `in` operator on strings. -/
def containsSub (needle : List Char) : List Char → Bool
  | [] => needle.isEmpty
  | c :: rest => leadsWith needle (c :: rest) || containsSub needle rest

/-- The provider error substring that signals "collection not found". -/
def stickersetInvalidMark : List Char := "STICKERSET_INVALID".toList

/-- Handling of the remote fetch in `push` (cli.py lines 779-787): an
exception whose message contains `STICKERSET_INVALID` becomes the
empty-remote state `none`; any other exception aborts with that message. -/
def handleFetch (r : Except (List Char) (String × List CloudSticker)) :
    Except (List Char) (Option (String × List CloudSticker)) :=
  match r with
  | .ok s => .ok (some s)
  | .error e => if containsSub stickersetInvalidMark e then .ok none else .error e

/-- Outcome of one run of the `push` command. -/
inductive PushOutcome where
  | abortedFetch (msg : List Char)
  | abortedBackup
  | ran (trace : List RemoteOp) (completed : Bool)
deriving DecidableEq

/-- The `push` command pipeline (cli.py lines 769-804): fetch the remote
collection, classify a fetch failure, take the snapshot backup (abort on
failure), then run `push_to_cloud`.  The post-push reindex step touches no
remote state beyond a re-fetch and the pull flow and is modelled separately
by `sync_index`. -/
def pushCommand (encode : String → Bool) (localTitle packName : String)
    (ls : List LocalFile) (fetch : Except (List Char) (String × List CloudSticker))
    (backupOk : Bool) : PushOutcome :=
  match handleFetch fetch with
  | .error e => .abortedFetch e
  | .ok cloudOpt =>
    if backupOk then
      let r := pushToCloudOps encode localTitle packName ls cloudOpt
      .ran r.1 r.2
    else .abortedBackup

/-! ### Claims about the push pipeline -/

/-- A run with 110 remote items, the same 110 locally plus 15 new local
files (the capacity-guard scenario of the spec), and a locally edited
title. -/
def exC3cs : List CloudSticker :=
  (List.range 110).map (fun i => ⟨"f" ++ toString i, "u" ++ toString i, 1, "e"⟩)

/-- Local inventory for the capacity-guard scenario. -/
def exC3ls : List LocalFile :=
  ((List.range 110).map (fun i => ⟨"u" ++ toString i, 1⟩))
    ++ (List.range 15).map (fun i => ⟨"x" ++ toString i, 1⟩)

/-- Push state for the capacity-guard scenario. -/
def exC3st : PushState := ⟨"A", "pack", exC3ls, "B", exC3cs⟩

set_option maxRecDepth 10000 in
/-- C3 counterexample: with `remote_count = 110`, `|to_delete| = 0`,
`|to_upload| = 15` the guard fires and the push is aborted, yet the remote
mutation `set_sticker_set_title` has already been issued before the guard
(the local title differs from the cloud title), refuting "no delete, upload,
or any other remote mutation is issued before the guard is evaluated". -/
theorem C3_counterexample :
    capacityExceeded exC3st ∧
    (cloudIds exC3st.cs).length = 110 ∧
    (to_delete exC3st.ls exC3st.cs).length = 0 ∧
    (to_upload exC3st.ls exC3st.cs).length = 15 ∧
    (incrementalPush (fun _ => true) exC3st).2 = false ∧
    (incrementalPush (fun _ => true) exC3st).1 = [RemoteOp.setTitle "pack" "A"] ∧
    RemoteOp.isMutation (RemoteOp.setTitle "pack" "A") = true := by
  refine ⟨by decide, by decide, by decide, by decide, ?_, ?_, by decide⟩
  · unfold incrementalPush
    rw [if_pos (by decide : capacityExceeded exC3st)]
  · unfold incrementalPush
    rw [if_pos (by decide : capacityExceeded exC3st)]
    decide

/-- C3 amended: whenever the capacity guard fires, the non-initial push is
aborted with no deletion, upload or repair call issued; the only remote
mutation possibly issued before the guard is the title update. -/
theorem C3_capacity_guard (encode : String → Bool) (st : PushState)
    (hg : capacityExceeded st) :
    incrementalPush encode st = (titleOps st, false) ∧
    ∀ op ∈ (incrementalPush encode st).1, op = RemoteOp.setTitle st.packName st.localTitle := by
  have h1 : incrementalPush encode st = (titleOps st, false) := by
    unfold incrementalPush
    rw [if_pos hg]
  refine ⟨h1, ?_⟩
  rw [h1]
  intro op hop
  unfold titleOps at hop
  by_cases ht : st.localTitle ≠ st.cloudTitle
  · rw [if_pos ht] at hop
    simpa using hop
  · rw [if_neg ht] at hop
    cases hop

set_option maxRecDepth 10000 in
/-- Witness for the amended C3 at the spec's concrete scenario. -/
theorem C3_capacity_guard_witness :
    capacityExceeded exC3st ∧
    incrementalPush (fun _ => true) exC3st = (titleOps exC3st, false) :=
  ⟨by decide, (C3_capacity_guard (fun _ => true) exC3st (by decide)).1⟩

/-- C6: a remote fetch failure whose message contains `STICKERSET_INVALID`
is not an error — the push proceeds in the empty-remote state (initial
creation path) — while any other fetch failure aborts the command with the
underlying message surfaced and no push work performed. -/
theorem C6_fetch_failure (encode : String → Bool) (lt pn : String)
    (ls : List LocalFile) (b : Bool) :
    (∀ e, containsSub stickersetInvalidMark e = true →
      handleFetch (.error e) = .ok none ∧
      pushCommand encode lt pn ls (.error e) true =
        .ran (initialPush encode pn (localStems ls)).1
             (initialPush encode pn (localStems ls)).2) ∧
    (∀ e, containsSub stickersetInvalidMark e = false →
      handleFetch (.error e) = .error e ∧
      pushCommand encode lt pn ls (.error e) b = .abortedFetch e) := by
  constructor
  · intro e he
    refine ⟨by simp [handleFetch, he], ?_⟩
    simp [pushCommand, handleFetch, he, pushToCloudOps]
  · intro e he
    refine ⟨by simp [handleFetch, he], ?_⟩
    simp [pushCommand, handleFetch, he]

/-- Witness for C6 at a concrete invalid-set message and a concrete
transport error. -/
theorem C6_fetch_failure_witness :
    (containsSub stickersetInvalidMark "Bad Request: STICKERSET_INVALID".toList = true ∧
      handleFetch (.error "Bad Request: STICKERSET_INVALID".toList) = .ok none) ∧
    (containsSub stickersetInvalidMark "Internal Server Error".toList = false ∧
      pushCommand (fun _ => true) "t" "p" [] (.error "Internal Server Error".toList) true =
        .abortedFetch "Internal Server Error".toList) :=
  ⟨⟨by decide,
      ((C6_fetch_failure (fun _ => true) "t" "p" [] true).1 _ (by decide)).1⟩,
    ⟨by decide,
      ((C6_fetch_failure (fun _ => true) "t" "p" [] true).2 _ (by decide)).2⟩⟩

/-- C9: with a failed backup the push command never reaches any push step:
the outcome is never a run (so no diff, no local or remote mutation), and a
run outcome certifies the backup attempt succeeded. -/
theorem C9_backup_gates_push (encode : String → Bool) (lt pn : String)
    (ls : List LocalFile) (fetch : Except (List Char) (String × List CloudSticker))
    (b : Bool) :
    (b = false → ∀ tr c, pushCommand encode lt pn ls fetch b ≠ .ran tr c) ∧
    (b = false → ∀ cloudOpt, handleFetch fetch = .ok cloudOpt →
      pushCommand encode lt pn ls fetch b = .abortedBackup) ∧
    (∀ tr c, pushCommand encode lt pn ls fetch b = .ran tr c → b = true) := by
  refine ⟨?_, ?_, ?_⟩
  · rintro rfl tr c h
    unfold pushCommand at h
    cases hf : handleFetch fetch with
    | error e => rw [hf] at h; cases h
    | ok cloudOpt => rw [hf] at h; simp at h
  · rintro rfl cloudOpt hok
    unfold pushCommand
    rw [hok]
    simp
  · intro tr c h
    cases b with
    | true => rfl
    | false =>
      exfalso
      unfold pushCommand at h
      cases hf : handleFetch fetch with
      | error e => rw [hf] at h; cases h
      | ok cloudOpt => rw [hf] at h; simp at h

/-- Witness for C9 at a concrete fetched state and failed backup. -/
theorem C9_backup_gates_push_witness :
    pushCommand (fun _ => true) "t" "p" [] (.ok ("t", [])) false = .abortedBackup :=
  (C9_backup_gates_push (fun _ => true) "t" "p" [] (.ok ("t", [])) false).2.1 rfl
    (some ("t", [])) rfl

theorem buildStickers_eq_none (encode : String → Bool) (stems : List String)
    (h : ∃ f ∈ stems, encode f = false) : buildStickers encode stems = none := by
  induction stems with
  | nil => simp at h
  | cons a as ih =>
    rcases h with ⟨f, hf, hef⟩
    rcases List.mem_cons.mp hf with rfl | hmem
    · simp [buildStickers, hef]
    · unfold buildStickers
      by_cases hea : encode a
      · rw [if_pos hea, ih ⟨f, hmem, hef⟩]
        rfl
      · rw [if_neg hea]

theorem buildStickers_eq_some (encode : String → Bool) (stems ss : List String)
    (h : buildStickers encode stems = some ss) : ss = stems := by
  induction stems generalizing ss with
  | nil => cases h; rfl
  | cons a as ih =>
    unfold buildStickers at h
    by_cases hea : encode a
    · rw [if_pos hea] at h
      cases hb : buildStickers encode as with
      | none => rw [hb] at h; cases h
      | some ss0 =>
        rw [hb] at h
        simp only [Option.map_some', Option.map_some, Option.some.injEq] at h
        rw [← h, ih ss0 hb]
    · rw [if_neg hea] at h
      cases h

/-- C7: encoding failures are asymmetric: during initial creation a single
failure aborts the whole batch before the creation call (empty trace, no
partial collection), while during incremental push exactly the successfully
encoded `to_upload` items are sent — a failing item is skipped with no
remote call of its own and the loop continues with the rest. -/
theorem C7_encoding_asymmetry :
    (∀ (encode : String → Bool) (name : String) (stems : List String),
      (∃ f ∈ stems, encode f = false) →
      initialPush encode name stems = ([], false)) ∧
    (∀ (encode : String → Bool) (name : String) (ls : List LocalFile)
        (cs : List CloudSticker),
      uploadOps encode name ls cs =
        ((to_upload ls cs).filter encode).map (RemoteOp.addSticker name)) ∧
    (∀ (encode : String → Bool) (name : String) (ls : List LocalFile)
        (cs : List CloudSticker) (f : String), encode f = false →
      RemoteOp.addSticker name f ∉ uploadOps encode name ls cs) := by
  refine ⟨?_, ?_, ?_⟩
  · intro encode name stems h
    unfold initialPush
    rw [buildStickers_eq_none encode stems h]
  · intro encode name ls cs
    unfold uploadOps
    induction to_upload ls cs with
    | nil => rfl
    | cons a as ih =>
      by_cases hea : encode a
      · simp [List.filterMap_cons, List.filter_cons, hea, ih]
      · simp [List.filterMap_cons, List.filter_cons, hea, ih]
  · intro encode name ls cs f hef hmem
    unfold uploadOps at hmem
    rcases List.mem_filterMap.mp hmem with ⟨s, hs, hsome⟩
    by_cases hes : encode s
    · rw [if_pos hes] at hsome
      cases hsome
      exact absurd hes (by simp [hef])
    · rw [if_neg hes] at hsome
      cases hsome

/-- Witness for C7: one failing file aborts initial creation; in the
incremental loop the failing item is skipped while the others are kept. -/
theorem C7_encoding_asymmetry_witness :
    initialPush (fun s => s != "bad") "p" ["a", "bad", "c"] = ([], false) ∧
    RemoteOp.addSticker "p" "bad" ∉
      uploadOps (fun s => s != "bad") "p" [⟨"a", 1⟩, ⟨"bad", 2⟩] [] :=
  ⟨C7_encoding_asymmetry.1 _ "p" _ ⟨"bad", by decide, by decide⟩,
    C7_encoding_asymmetry.2.2 _ "p" [⟨"a", 1⟩, ⟨"bad", 2⟩] [] "bad" (by decide)⟩

/-- C8: after the encode loop of an initial push, the creation is aborted
when the batch is empty or larger than 30, and the single
`create_new_sticker_set` call is issued exactly when `1 ≤ count ≤ 30`
(where the count is the number of local files, all encoded). -/
theorem C8_creation_guard (encode : String → Bool) (name : String) (stems : List String) :
    (∀ ss, buildStickers encode stems = some ss → ss = stems) ∧
    (∀ ss, buildStickers encode stems = some ss → ss.length = 0 →
      initialPush encode name stems = ([], false)) ∧
    (∀ ss, buildStickers encode stems = some ss → ss.length > 30 →
      initialPush encode name stems = ([], false)) ∧
    (∀ n, RemoteOp.createSet name n ∈ (initialPush encode name stems).1 →
      1 ≤ n ∧ n ≤ 30 ∧ n = stems.length) ∧
    (∀ ss, buildStickers encode stems = some ss → 1 ≤ ss.length → ss.length ≤ 30 →
      initialPush encode name stems = ([RemoteOp.createSet name ss.length], true)) := by
  refine ⟨fun ss h => buildStickers_eq_some encode stems ss h, ?_, ?_, ?_, ?_⟩
  · intro ss h h0
    unfold initialPush
    rw [h]
    simp [h0]
  · intro ss h h30
    unfold initialPush
    rw [h]
    simp only [if_pos h30]
  · intro n hn
    unfold initialPush at hn
    cases hb : buildStickers encode stems with
    | none => rw [hb] at hn; cases hn
    | some ss =>
      rw [hb] at hn
      dsimp only at hn
      by_cases h30 : ss.length > 30
      · rw [if_pos h30] at hn; cases hn
      · rw [if_neg h30] at hn
        by_cases h0 : ss.length = 0
        · rw [if_pos h0] at hn; cases hn
        · rw [if_neg h0] at hn
          have hn2 := List.mem_singleton.mp hn
          simp only [RemoteOp.createSet.injEq] at hn2
          have hss := buildStickers_eq_some encode stems ss hb
          have hlen : ss.length = stems.length := by rw [hss]
          omega
  · intro ss h h1 h30
    unfold initialPush
    rw [h]
    dsimp only
    rw [if_neg (by omega), if_neg (by omega)]

/-- Witness for C8: a two-file batch issues the creation call with count 2. -/
theorem C8_creation_guard_witness :
    buildStickers (fun _ => true) ["a", "b"] = some ["a", "b"] ∧
    initialPush (fun _ => true) "p" ["a", "b"] = ([RemoteOp.createSet "p" 2], true) :=
  ⟨by decide,
    (C8_creation_guard (fun _ => true) "p" ["a", "b"]).2.2.2.2 ["a", "b"]
      (by decide) (by decide) (by decide)⟩

/-! ### The pull flow (`sync_index`, cli.py lines 222-320)

`sync_index` deletes locally-orphaned files, re-downloads size-mismatched
files, downloads remote-only content, and rewrites the pack's `emotes` to
mirror the remote inventory.  Downloads write the remote's actual bytes;
an unchanged, self-consistent remote (the hypothesis of C4) reports
`file_size` equal to the size of the bytes it serves, so a downloaded file
has size `file_size`. -/

/-- One `(emoji, file_id)` entry of the persisted index. -/
structure Emote where
  emoji : String
  file_id : String
deriving DecidableEq

/-- The `to_delete` list of `sync_index`: local files whose stem the remote
does not know. -/
def syncToDeleteFiles (ls : List LocalFile) (cs : List CloudSticker) : List LocalFile :=
  ls.filter (fun f => !((cloudIds cs).contains f.stem))

/-- The `to_validate` list of `sync_index`: local files present remotely. -/
def syncToValidate (ls : List LocalFile) (cs : List CloudSticker) : List LocalFile :=
  ls.filter (fun f => (cloudIds cs).contains f.stem)

/-- The initial `to_download` list of `sync_index`: remote ids with no local
file. -/
def syncToDownloadInit (ls : List LocalFile) (cs : List CloudSticker) : List String :=
  (cloudIds cs).filter (fun k => !((localStems ls).contains k))

/-- The size check of the validation loop: `local_size != sticker_size`. -/
def sizeMismatch (cs : List CloudSticker) (f : LocalFile) : Bool :=
  match findCloud cs f.stem with
  | some s => f.size != s.file_size
  | none => false

/-- Stems appended to `to_download` by the validation loop (mismatched
files, which are unlinked and re-downloaded). -/
def syncRedownload (ls : List LocalFile) (cs : List CloudSticker) : List String :=
  ((syncToValidate ls cs).filter (fun f => sizeMismatch cs f)).map LocalFile.stem

/-- The final `to_download` list after the validation loop. -/
def syncToDownload (ls : List LocalFile) (cs : List CloudSticker) : List String :=
  syncToDownloadInit ls cs ++ syncRedownload ls cs

/-- Local files that survive the pull untouched. -/
def syncKept (ls : List LocalFile) (cs : List CloudSticker) : List LocalFile :=
  (syncToValidate ls cs).filter (fun f => !(sizeMismatch cs f))

/-- Files written by the download loop (`download_and_write_file` per
`to_download` entry), with the size the consistent remote serves. -/
def syncDownloaded (ls : List LocalFile) (cs : List CloudSticker) : List LocalFile :=
  (syncToDownload ls cs).filterMap
    (fun k => (findCloud cs k).map (fun s => ⟨k, s.file_size⟩))

/-- The local directory after one pull. -/
def syncFiles (ls : List LocalFile) (cs : List CloudSticker) : List LocalFile :=
  syncKept ls cs ++ syncDownloaded ls cs

/-- The `emotes` sequence written back to the index after a pull: one entry
per remote item, keyed by `file_unique_id`, in remote order. -/
def syncEmotes (cs : List CloudSticker) : List Emote :=
  cs.map (fun s => ⟨s.emoji, s.file_unique_id⟩)

theorem findCloud_some_mem (cs : List CloudSticker) (k : String) (s : CloudSticker)
    (h : findCloud cs k = some s) : k ∈ cloudIds cs :=
  (findCloud_mem cs k).mpr ⟨s, h, by simpa using List.find?_some h⟩

theorem mem_syncFiles_size (ls : List LocalFile) (cs : List CloudSticker) (f : LocalFile)
    (hf : f ∈ syncFiles ls cs) :
    ∃ s, findCloud cs f.stem = some s ∧ f.size = s.file_size := by
  rcases List.mem_append.mp hf with hk | hd
  · rcases List.mem_filter.mp hk with ⟨hv, hnm⟩
    rcases List.mem_filter.mp hv with ⟨_, hcont⟩
    have hstem : f.stem ∈ cloudIds cs := by simpa using hcont
    rcases (findCloud_mem cs f.stem).mp hstem with ⟨s, hfind, _⟩
    refine ⟨s, hfind, ?_⟩
    unfold sizeMismatch at hnm
    rw [hfind] at hnm
    simpa using hnm
  · rcases List.mem_filterMap.mp hd with ⟨k, _, hsome⟩
    cases hfind : findCloud cs k with
    | none => rw [hfind] at hsome; cases hsome
    | some s =>
      rw [hfind] at hsome
      simp only [Option.map_some', Option.map_some, Option.some.injEq] at hsome
      rw [← hsome]
      exact ⟨s, hfind, rfl⟩

theorem mem_syncFiles_stem (ls : List LocalFile) (cs : List CloudSticker) (f : LocalFile)
    (hf : f ∈ syncFiles ls cs) : f.stem ∈ cloudIds cs := by
  rcases mem_syncFiles_size ls cs f hf with ⟨s, hfind, _⟩
  exact findCloud_some_mem cs f.stem s hfind

theorem cloud_mem_syncFiles (ls : List LocalFile) (cs : List CloudSticker) (k : String)
    (hk : k ∈ cloudIds cs) : k ∈ localStems (syncFiles ls cs) := by
  rcases (findCloud_mem cs k).mp hk with ⟨s, hfind, _⟩
  by_cases hloc : k ∈ localStems ls
  · rcases List.mem_map.mp hloc with ⟨f, hf, rfl⟩
    have hv : f ∈ syncToValidate ls cs :=
      List.mem_filter.mpr ⟨hf, by simpa using hk⟩
    by_cases hm : sizeMismatch cs f = true
    · have hred : f.stem ∈ syncRedownload ls cs :=
        List.mem_map.mpr ⟨f, List.mem_filter.mpr ⟨hv, hm⟩, rfl⟩
      have hdl : f.stem ∈ syncToDownload ls cs := List.mem_append.mpr (Or.inr hred)
      have hmem : (⟨f.stem, s.file_size⟩ : LocalFile) ∈ syncDownloaded ls cs :=
        List.mem_filterMap.mpr ⟨f.stem, hdl, by rw [hfind]; rfl⟩
      exact List.mem_map.mpr ⟨_, List.mem_append.mpr (Or.inr hmem), rfl⟩
    · have hkept : f ∈ syncKept ls cs :=
        List.mem_filter.mpr ⟨hv, by simpa using hm⟩
      exact List.mem_map.mpr ⟨f, List.mem_append.mpr (Or.inl hkept), rfl⟩
  · have hinit : k ∈ syncToDownloadInit ls cs :=
      List.mem_filter.mpr ⟨hk, by simpa using hloc⟩
    have hdl : k ∈ syncToDownload ls cs := List.mem_append.mpr (Or.inl hinit)
    have hmem : (⟨k, s.file_size⟩ : LocalFile) ∈ syncDownloaded ls cs :=
      List.mem_filterMap.mpr ⟨k, hdl, by rw [hfind]; rfl⟩
    exact List.mem_map.mpr ⟨_, List.mem_append.mpr (Or.inr hmem), rfl⟩

theorem stems_filterMap_sublist (cs : List CloudSticker) (L : List String) :
    List.Sublist
      (localStems (L.filterMap (fun k => (findCloud cs k).map (fun s => ⟨k, s.file_size⟩))))
      L := by
  induction L with
  | nil => simp [localStems]
  | cons k L ih =>
    rw [List.filterMap_cons]
    cases hfind : findCloud cs k with
    | none =>
      exact List.Sublist.cons k ih
    | some s =>
      simpa [localStems] using List.Sublist.cons₂ k ih

theorem stems_syncFiles_nodup (ls : List LocalFile) (cs : List CloudSticker)
    (hl : (localStems ls).Nodup) (hc : (cloudIds cs).Nodup) :
    (localStems (syncFiles ls cs)).Nodup := by
  have hkept_sub : List.Sublist (syncKept ls cs) ls :=
    ((syncToValidate ls cs).filter_sublist).trans (ls.filter_sublist)
  have hkept_stems : List.Sublist (localStems (syncKept ls cs)) (localStems ls) :=
    hkept_sub.map LocalFile.stem
  have hredl_stems : List.Sublist (syncRedownload ls cs) (localStems ls) := by
    have h1 : List.Sublist ((syncToValidate ls cs).filter (fun f => sizeMismatch cs f)) ls :=
      ((syncToValidate ls cs).filter_sublist).trans (ls.filter_sublist)
    exact h1.map LocalFile.stem
  have hinit_nodup : (syncToDownloadInit ls cs).Nodup :=
    hc.sublist ((cloudIds cs).filter_sublist)
  have hredl_nodup : (syncRedownload ls cs).Nodup := hl.sublist hredl_stems
  have hL_disj : (syncToDownloadInit ls cs).Disjoint (syncRedownload ls cs) := by
    intro k hki hkr
    have hnotloc : k ∉ localStems ls := by
      have := (List.mem_filter.mp hki).2
      simpa using this
    exact hnotloc (hredl_stems.mem hkr)
  have hL_nodup : (syncToDownload ls cs).Nodup :=
    List.nodup_append.mpr ⟨hinit_nodup, hredl_nodup, hL_disj⟩
  have hdl_stems : List.Sublist (localStems (syncDownloaded ls cs)) (syncToDownload ls cs) :=
    stems_filterMap_sublist cs (syncToDownload ls cs)
  have hdl_nodup : (localStems (syncDownloaded ls cs)).Nodup := hL_nodup.sublist hdl_stems
  have hkept_nodup : (localStems (syncKept ls cs)).Nodup := hl.sublist hkept_stems
  have hdisj : (localStems (syncKept ls cs)).Disjoint (localStems (syncDownloaded ls cs)) := by
    intro a ha hb
    rcases List.mem_map.mp ha with ⟨f, hfkept, rfl⟩
    have hfls : f ∈ ls := hkept_sub.mem hfkept
    have hfnm : sizeMismatch cs f = false := by
      have := (List.mem_filter.mp hfkept).2
      simpa using this
    have haL : f.stem ∈ syncToDownload ls cs := hdl_stems.mem hb
    rcases List.mem_append.mp haL with hai | har
    · have hnotloc : f.stem ∉ localStems ls := by
        have := (List.mem_filter.mp hai).2
        simpa using this
      exact hnotloc (List.mem_map_of_mem LocalFile.stem hfls)
    · rcases List.mem_map.mp har with ⟨f2, hf2, hstem2⟩
      have hf2ls : f2 ∈ ls :=
        (((syncToValidate ls cs).filter_sublist).trans (ls.filter_sublist)).mem hf2
      have hf2m : sizeMismatch cs f2 = true := (List.mem_filter.mp hf2).2
      have h1 := find?_key_eq LocalFile.stem ls hl f hfls
      have h2 := find?_key_eq LocalFile.stem ls hl f2 hf2ls
      rw [hstem2] at h2
      rw [h2] at h1
      cases h1
      rw [hf2m] at hfnm
      cases hfnm
  rw [syncFiles, localStems, List.map_append]
  exact List.nodup_append.mpr ⟨hkept_nodup, hdl_nodup, hdisj⟩

/-- C4: pulling twice against an unchanged remote is idempotent.  After one
pull the local stems are exactly distinct remote keys, so the second run
computes empty `to_delete`, re-download and `to_download` lists (no file is
deleted, re-downloaded or created), leaves the directory unchanged, and
writes the same `emotes` sequence as the first run. -/
theorem C4_pull_idempotent (ls : List LocalFile) (cs : List CloudSticker)
    (hl : (localStems ls).Nodup) (hc : (cloudIds cs).Nodup) :
    (localStems (syncFiles ls cs)).Nodup ∧
    syncToDeleteFiles (syncFiles ls cs) cs = [] ∧
    syncRedownload (syncFiles ls cs) cs = [] ∧
    syncToDownload (syncFiles ls cs) cs = [] ∧
    syncFiles (syncFiles ls cs) cs = syncFiles ls cs ∧
    syncEmotes cs = syncEmotes cs := by
  have hstem : ∀ f ∈ syncFiles ls cs, f.stem ∈ cloudIds cs := mem_syncFiles_stem ls cs
  have hnm : ∀ f ∈ syncFiles ls cs, sizeMismatch cs f = false := by
    intro f hf
    rcases mem_syncFiles_size ls cs f hf with ⟨s, hfind, hsz⟩
    unfold sizeMismatch
    rw [hfind]
    simp [hsz]
  have hdel : syncToDeleteFiles (syncFiles ls cs) cs = [] := by
    apply List.filter_eq_nil_iff.mpr
    intro f hf
    simp [hstem f hf]
  have hred : syncRedownload (syncFiles ls cs) cs = [] := by
    unfold syncRedownload
    have hin : (syncToValidate (syncFiles ls cs) cs).filter (fun f => sizeMismatch cs f) = [] := by
      apply List.filter_eq_nil_iff.mpr
      intro f hf
      have hf1 : f ∈ syncFiles ls cs := List.mem_of_mem_filter hf
      simp [hnm f hf1]
    rw [hin]
    rfl
  have hdl : syncToDownload (syncFiles ls cs) cs = [] := by
    unfold syncToDownload
    have hi : syncToDownloadInit (syncFiles ls cs) cs = [] := by
      apply List.filter_eq_nil_iff.mpr
      intro k hk
      simp [cloud_mem_syncFiles ls cs k hk]
    rw [hi, hred]
    rfl
  refine ⟨stems_syncFiles_nodup ls cs hl hc, hdel, hred, hdl, ?_, rfl⟩
  have hv : syncToValidate (syncFiles ls cs) cs = syncFiles ls cs :=
    List.filter_eq_self.mpr (fun f hf => by simp [hstem f hf])
  have hk : syncKept (syncFiles ls cs) cs = syncFiles ls cs := by
    unfold syncKept
    rw [hv]
    exact List.filter_eq_self.mpr (fun f hf => by simp [hnm f hf])
  have hd0 : syncDownloaded (syncFiles ls cs) cs = [] := by
    unfold syncDownloaded
    rw [hdl]
    rfl
  have hrfl : syncFiles (syncFiles ls cs) cs =
      syncKept (syncFiles ls cs) cs ++ syncDownloaded (syncFiles ls cs) cs := rfl
  rw [hrfl, hk, hd0, List.append_nil]

/-- Local inventory for the pull-idempotence witness: one file matching the
remote, one orphan. -/
def exC4ls : List LocalFile := [⟨"u1", 5⟩, ⟨"old", 3⟩]

/-- Remote inventory for the pull-idempotence witness. -/
def exC4cs : List CloudSticker := [⟨"f1", "u1", 5, "a"⟩, ⟨"f2", "u2", 7, "b"⟩]

/-- Witness for C4 at a concrete pair of inventories. -/
theorem C4_pull_idempotent_witness :
    ((localStems exC4ls).Nodup ∧ (cloudIds exC4cs).Nodup) ∧
    syncToDownload (syncFiles exC4ls exC4cs) exC4cs = [] ∧
    syncFiles (syncFiles exC4ls exC4cs) exC4cs = syncFiles exC4ls exC4cs :=
  ⟨⟨by decide, by decide⟩,
    (C4_pull_idempotent exC4ls exC4cs (by decide) (by decide)).2.2.2.1,
    (C4_pull_idempotent exC4ls exC4cs (by decide) (by decide)).2.2.2.2.1⟩

/-- Local inventory of the spec's diff scenario. -/
def exC1ls : List LocalFile := [⟨"abc123", 500⟩, ⟨"def456", 900⟩]

/-- Remote inventory of the spec's diff scenario. -/
def exC1cs : List CloudSticker := [⟨"fidA", "abc123", 500, "e"⟩, ⟨"fidG", "ghi789", 300, "g"⟩]

/-- Witness for C1 at the spec's concrete scenario: `to_upload = [def456]`,
`to_delete = [ghi789's file_id]`, `to_fix = []`. -/
theorem C1_diff_partition_witness :
    to_upload exC1ls exC1cs = ["def456"] ∧
    to_delete exC1ls exC1cs = ["fidG"] ∧
    to_fix exC1ls exC1cs = [] ∧
    ("def456" ∈ to_upload exC1ls exC1cs ↔
      "def456" ∈ localStems exC1ls ∧ "def456" ∉ cloudIds exC1cs) :=
  ⟨by decide, by decide, by decide,
    (C1_diff_partition exC1ls exC1cs (by decide) (by decide)).1 "def456"⟩

/-! ### File effects of the push repair step (cli.py lines 741-762 and
`download_and_write_file`, lines 174-190)

The sticker directory is an association list from `(stem, extension)` to
file bytes.  `download_and_write_file` writes the downloaded bytes to
`<file_unique_id>.<detected_label>`; the repair loop then unlinks the
pre-existing local path it captured before the download. -/

/-- A directory as a finite map from `(stem, extension)` to bytes. -/
abbrev FileSys := List ((String × String) × List Nat)

/-- `Path.write_bytes`: overwrite an existing entry in place or create it. -/
def fsWrite (fs : FileSys) (k : String × String) (b : List Nat) : FileSys :=
  if (fs.map Prod.fst).contains k then
    fs.map (fun e => if e.1 = k then (k, b) else e)
  else fs ++ [(k, b)]

/-- `Path.unlink(missing_ok=True)`. -/
def fsUnlink (fs : FileSys) (k : String × String) : FileSys :=
  fs.filter (fun e => e.1 != k)

/-- Contents of the file at `k`, if it exists. -/
def fsLookup (fs : FileSys) (k : String × String) : Option (List Nat) :=
  (fs.find? (fun e => e.1 == k)).map Prod.snd

/-- `download_and_write_file`: on empty download, log and write nothing;
otherwise write the bytes under the stem plus the magika-detected label. -/
def downloadAndWriteFile (fs : FileSys) (uid : String) (bytes : Option (List Nat))
    (label : String) : FileSys :=
  match bytes with
  | none => fs
  | some b => fsWrite fs (uid, label) b

/-- One iteration of the repair loop: download-and-write the canonical
remote bytes, then unlink the captured pre-existing local path. -/
def fixOne (fs : FileSys) (stem oldExt : String) (bytes : Option (List Nat))
    (label : String) : FileSys :=
  fsUnlink (downloadAndWriteFile fs stem bytes label) (stem, oldExt)

theorem mem_fsWrite (fs : FileSys) (k : String × String) (b : List Nat)
    (e : (String × String) × List Nat) (he : e ∈ fsWrite fs k b) :
    e = (k, b) ∨ e ∈ fs := by
  unfold fsWrite at he
  by_cases hc : ((fs.map Prod.fst).contains k) = true
  · rw [if_pos hc] at he
    rcases List.mem_map.mp he with ⟨e0, he0, hfe⟩
    by_cases hk : e0.1 = k
    · rw [if_pos hk] at hfe
      exact Or.inl hfe.symm
    · rw [if_neg hk] at hfe
      exact Or.inr (hfe ▸ he0)
  · rw [if_neg hc] at he
    rcases List.mem_append.mp he with h | h
    · exact Or.inr h
    · exact Or.inl (List.mem_singleton.mp h)

/-- C10: a repair writes the canonical bytes to the stem plus the freshly
detected extension and then unlinks the captured old path.  When the
detected extension equals the old one, the unlink removes the
just-downloaded file and no file for that content key remains (the
directory held a single file per stem after `delete_same_name_files`);
when it differs, the freshly written copy survives and the old path is
gone. -/
theorem C10_repair_unlink (fs : FileSys) (stem oldExt label : String) (b : List Nat)
    (hOnly : ∀ e ∈ fs, e.1.1 = stem → e.1.2 = oldExt) :
    (label = oldExt →
      ∀ e ∈ fixOne fs stem oldExt (some b) label, e.1.1 ≠ stem) ∧
    (label ≠ oldExt →
      fsLookup (fixOne fs stem oldExt (some b) label) (stem, label) = some b ∧
      fsLookup (fixOne fs stem oldExt (some b) label) (stem, oldExt) = none) := by
  constructor
  · rintro rfl e he hstem
    rcases List.mem_filter.mp he with ⟨hw, hne⟩
    have hne2 : e.1 ≠ (stem, label) := by simpa using hne
    rcases mem_fsWrite fs (stem, label) b e hw with rfl | hfs
    · exact hne2 rfl
    · have hext := hOnly e hfs hstem
      exact hne2 (Prod.ext hstem hext)
  · intro hne
    have hnotin : ((fs.map Prod.fst).contains (stem, label)) ≠ true := by
      intro hc
      have hmem : (stem, label) ∈ fs.map Prod.fst := by simpa using hc
      rcases List.mem_map.mp hmem with ⟨e, hefs, heq⟩
      have h1 : e.1.1 = stem := by rw [heq]
      have h2 : e.1.2 = label := by rw [heq]
      exact hne (h2 ▸ hOnly e hefs h1)
    have hW : fsWrite fs (stem, label) b = fs ++ [((stem, label), b)] := by
      unfold fsWrite
      rw [if_neg hnotin]
    have hfix : fixOne fs stem oldExt (some b) label =
        (fs ++ [((stem, label), b)]).filter (fun e => e.1 != (stem, oldExt)) := by
      unfold fixOne downloadAndWriteFile fsUnlink
      dsimp only
      rw [hW]
    rw [hfix, List.filter_append]
    have hsingle : ([((stem, label), b)].filter (fun e => e.1 != (stem, oldExt)))
        = [((stem, label), b)] := by
      apply List.filter_eq_self.mpr
      intro e he
      rcases List.mem_singleton.mp he with rfl
      simpa using fun (h : (stem, label) = (stem, oldExt)) => hne (congrArg Prod.snd h)
    rw [hsingle]
    constructor
    · unfold fsLookup
      rw [List.find?_append]
      have hleft : (fs.filter (fun e => e.1 != (stem, oldExt))).find?
          (fun e => e.1 == (stem, label)) = none := by
        apply List.find?_eq_none.mpr
        intro e hef
        have hefs : e ∈ fs := List.mem_of_mem_filter hef
        intro hbe
        have hkey : e.1 = (stem, label) := by simpa using hbe
        have h1 : e.1.1 = stem := by rw [hkey]
        have h2 : e.1.2 = label := by rw [hkey]
        exact hne (h2 ▸ hOnly e hefs h1)
      rw [hleft]
      simp [List.find?]
    · unfold fsLookup
      rw [List.find?_append]
      have hleft : (fs.filter (fun e => e.1 != (stem, oldExt))).find?
          (fun e => e.1 == (stem, oldExt)) = none := by
        apply List.find?_eq_none.mpr
        intro e hef
        have hkeep := (List.mem_filter.mp hef).2
        intro hbe
        have hkey : e.1 = (stem, oldExt) := by simpa using hbe
        simp [hkey] at hkeep
      rw [hleft]
      have hright : ([((stem, label), b)].find? (fun e => e.1 == (stem, oldExt))) = none := by
        apply List.find?_eq_none.mpr
        intro e he
        rcases List.mem_singleton.mp he with rfl
        simpa using fun (h : (stem, label) = (stem, oldExt)) => hne (congrArg Prod.snd h)
      rw [hright]
      rfl

/-- Directory for the repair witness: one `k.png` file. -/
def exC10fs : FileSys := [(("k", "png"), [1, 2, 3])]

/-- Witness for C10: repairing `k` with detected extension `webp` leaves the
fresh `k.webp` bytes and removes `k.png`. -/
theorem C10_repair_unlink_witness :
    fsLookup (fixOne exC10fs "k" "png" (some [9]) "webp") ("k", "webp") = some [9] ∧
    fsLookup (fixOne exC10fs "k" "png" (some [9]) "webp") ("k", "png") = none :=
  (C10_repair_unlink exC10fs "k" "png" "webp" [9] (by decide)).2 (by decide)

/-! ### HMAC-SHA256 and the integrity-tagged index
(`core/create.py`: `StickerPack`, `generate_lock_ns`, `validate_lock_ns`)

SHA-256 over byte lists, 32-bit words as `Nat` reduced modulo `2 ^ 32`,
exactly the FIPS 180-4 algorithm the Python `hashlib.sha256` primitive
implements, followed by RFC 2104 HMAC as in the `hmac` module.  Strings
are taken to their character codes (the UTF-8 bytes for the ASCII data
these fields hold). -/

/-- Reduction of a word modulo `2 ^ 32`. -/
def w32 (n : Nat) : Nat := n % 4294967296

/-- 32-bit modular addition. -/
def add32 (a b : Nat) : Nat := (a + b) % 4294967296

/-- 32-bit right rotation. -/
def rotr32 (n x : Nat) : Nat := w32 ((x >>> n) ||| (x <<< (32 - n)))

/-- Logical right shift. -/
def shr32 (n x : Nat) : Nat := x >>> n

/-- 32-bit complement. -/
def not32 (x : Nat) : Nat := x ^^^ 4294967295

/-- The SHA-256 choice function. -/
def chF (x y z : Nat) : Nat := (x &&& y) ^^^ (not32 x &&& z)

/-- The SHA-256 majority function. -/
def majF (x y z : Nat) : Nat := (x &&& y) ^^^ (x &&& z) ^^^ (y &&& z)

/-- Big sigma-0. -/
def sigUpper0 (x : Nat) : Nat := rotr32 2 x ^^^ rotr32 13 x ^^^ rotr32 22 x

/-- Big sigma-1. -/
def sigUpper1 (x : Nat) : Nat := rotr32 6 x ^^^ rotr32 11 x ^^^ rotr32 25 x

/-- Small sigma-0. -/
def sigLower0 (x : Nat) : Nat := rotr32 7 x ^^^ rotr32 18 x ^^^ shr32 3 x

/-- Small sigma-1. -/
def sigLower1 (x : Nat) : Nat := rotr32 17 x ^^^ rotr32 19 x ^^^ shr32 10 x

/-- The 64 SHA-256 round constants. -/
def shaK : List Nat := [
  1116352408, 1899447441, 3049323471, 3921009573, 961987163,
  1508970993, 2453635748, 2870763221, 3624381080, 310598401,
  607225278, 1426881987, 1925078388, 2162078206, 2614888103,
  3248222580, 3835390401, 4022224774, 264347078, 604807628,
  770255983, 1249150122, 1555081692, 1996064986, 2554220882,
  2821834349, 2952996808, 3210313671, 3336571891, 3584528711,
  113926993, 338241895, 666307205, 773529912, 1294757372,
  1396182291, 1695183700, 1986661051, 2177026350, 2456956037,
  2730485921, 2820302411, 3259730800, 3345764771, 3516065817,
  3600352804, 4094571909, 275423344, 430227734, 506948616,
  659060556, 883997877, 958139571, 1322822218, 1537002063,
  1747873779, 1955562222, 2024104815, 2227730452, 2361852424,
  2428436474, 2756734187, 3204031479, 3329325298]

/-- The SHA-256 initial hash state. -/
def shaH0 : List Nat := [
  1779033703, 3144134277, 1013904242, 2773480762, 1359893119,
  2600822924, 528734635, 1541459225]

/-- Message-schedule extension of a 16-word block to 64 words (fuel-driven
so it computes by kernel reduction; 48 steps are taken). -/
def extendWFuel : Nat → List Nat → List Nat
  | 0, w => w
  | n + 1, w =>
    if w.length ≥ 64 then w
    else extendWFuel n (w ++ [add32
      (add32 (sigLower1 (w.getD (w.length - 2) 0)) (w.getD (w.length - 7) 0))
      (add32 (sigLower0 (w.getD (w.length - 15) 0)) (w.getD (w.length - 16) 0))])

/-- The full 64-word message schedule. -/
def extendW (w : List Nat) : List Nat := extendWFuel 64 w

/-- One SHA-256 compression round on the eight-word state. -/
def shaRound (st : List Nat) (kw : Nat × Nat) : List Nat :=
  match st with
  | [a, b, c, d, e, f, g, h] =>
    let t1 := add32 (add32 (add32 h (sigUpper1 e)) (add32 (chF e f g) kw.1)) kw.2
    let t2 := add32 (sigUpper0 a) (majF a b c)
    [add32 t1 t2, a, b, c, add32 d t1, e, f, g]
  | other => other

/-- The SHA-256 compression function for one block. -/
def shaCompress (h0 : List Nat) (block : List Nat) : List Nat :=
  let st := (shaK.zip (extendW block)).foldl shaRound h0
  (h0.zip st).map (fun p => add32 p.1 p.2)

/-- Big-endian bytes of a value, fixed width. -/
def beBytes : Nat → Nat → List Nat
  | 0, _ => []
  | n + 1, v => beBytes n (v / 256) ++ [v % 256]

/-- SHA-256 padding: `0x80`, zeros to 56 mod 64, 8-byte big-endian bit
length. -/
def sha256Pad (msg : List Nat) : List Nat :=
  msg ++ [128] ++ List.replicate ((64 - ((msg.length + 9) % 64)) % 64) 0
      ++ beBytes 8 (msg.length * 8)

/-- Big-endian 4-byte grouping of the padded message. -/
def bytesToWords : List Nat → List Nat
  | a :: b :: c :: d :: rest => (((a * 256 + b) * 256 + c) * 256 + d) :: bytesToWords rest
  | _ => []

/-- Split a word list into 16-word blocks (fuel-driven by the length). -/
def toBlocksFuel : Nat → List Nat → List (List Nat)
  | 0, _ => []
  | _, [] => []
  | n + 1, w :: ws => ((w :: ws).take 16) :: toBlocksFuel n ((w :: ws).drop 16)

/-- All 16-word blocks of a word list. -/
def toBlocks (ws : List Nat) : List (List Nat) := toBlocksFuel ws.length ws

/-- The SHA-256 digest of a byte list, as 32 bytes. -/
def sha256Bytes (msg : List Nat) : List Nat :=
  ((toBlocks (bytesToWords (sha256Pad msg))).foldl shaCompress shaH0).foldr
    (fun w acc => beBytes 4 w ++ acc) []

/-- Lowercase hexadecimal alphabet. -/
def hexChars : List Char := "0123456789abcdef".toList

/-- Two hex digits of a byte. -/
def hexOfByte (b : Nat) : List Char := [hexChars.getD (b / 16) '0', hexChars.getD (b % 16) '0']

/-- The `.hexdigest()` rendering of a digest. -/
def hexdigest (bs : List Nat) : String := ⟨bs.foldr (fun b acc => hexOfByte b ++ acc) []⟩

/-- Byte encoding of a string (character codes; UTF-8 for the ASCII data
these fields carry). -/
def strBytes (s : String) : List Nat := s.toList.map Char.toNat

/-- RFC 2104 HMAC over SHA-256 with a 64-byte block, exactly as
`hmac.new(key, msg, hashlib.sha256)` computes it. -/
def hmacSha256 (key msg : List Nat) : List Nat :=
  let k0 := if key.length > 64 then sha256Bytes key else key
  let kp := k0 ++ List.replicate (64 - k0.length) 0
  sha256Bytes ((kp.map (fun x => x ^^^ 92)) ++ sha256Bytes ((kp.map (fun x => x ^^^ 54)) ++ msg))

set_option maxRecDepth 20000 in
/-- FIPS 180-4 test vector: the embedding computes the reference digest of
`"abc"`. -/
theorem sha256_test_vector :
    hexdigest (sha256Bytes (strBytes "abc")) =
      "ba7816bf8f01cfea414140de5dae2223b00361a396177a9cb410ff61f20015ad" := by
  decide

set_option maxRecDepth 20000 in
/-- RFC-known HMAC-SHA256 test vector (`key`/`The quick brown fox ...`). -/
theorem hmacSha256_test_vector :
    hexdigest (hmacSha256 (strBytes "key")
        (strBytes "The quick brown fox jumps over the lazy dog")) =
      "f7bc83f430538424b13298e6aa6fb143ef4d59a14946175997479dbc2d1a3cd8" := by
  decide

/-- `generate_lock_ns` of `core/create.py`: hex HMAC-SHA256 with the
operator id as key over `name + ":" + sticker_type`. -/
def generate_lock_ns (bot_id name sticker_type : String) : String :=
  hexdigest (hmacSha256 (strBytes bot_id) (strBytes (name ++ ":" ++ sticker_type)))

/-- The three admissible sticker types of the index model. -/
inductive StickerType where
  | mask
  | regular
  | custom_emoji
deriving DecidableEq

/-- The serialized name of a sticker type. -/
def StickerType.toStr : StickerType → String
  | .mask => "mask"
  | .regular => "regular"
  | .custom_emoji => "custom_emoji"

/-- The validated in-memory `StickerPack` model of `core/create.py`. -/
structure StickerPack where
  title : String
  name : String
  sticker_type : StickerType
  operator_id : String
  lock_ns : String
  emotes : List Emote
deriving DecidableEq

/-- `StickerPack.create`: computes and embeds the integrity tag. -/
def StickerPack.create (title name : String) (st : StickerType) (operator_id : String) :
    StickerPack :=
  { title := title, name := name, sticker_type := st, operator_id := operator_id,
    lock_ns := generate_lock_ns operator_id name st.toStr, emotes := [] }

/-- The serialized index file: raw fields as JSON carries them, with
`sticker_type` still an arbitrary string. -/
structure RawIndex where
  title : String
  name : String
  sticker_type : String
  operator_id : String
  lock_ns : String
  emotes : List Emote
deriving DecidableEq

/-- Serialization of a pack (`model_dump_json`, field by field). -/
def save (p : StickerPack) : RawIndex :=
  ⟨p.title, p.name, p.sticker_type.toStr, p.operator_id, p.lock_ns, p.emotes⟩

/-- The `Literal["mask", "regular", "custom_emoji"]` check of pydantic
validation. -/
def parseStickerType (s : String) : Option StickerType :=
  if s = "mask" then some .mask
  else if s = "regular" then some .regular
  else if s = "custom_emoji" then some .custom_emoji
  else none

/-- The `validate_lock_ns` model validator: recompute the expected tag and
compare (`hmac.compare_digest`, functionally string equality; its
constant-time execution is a timing property outside this model). -/
def validate_lock_ns (p : StickerPack) : Except String StickerPack :=
  if p.lock_ns = generate_lock_ns p.operator_id p.name p.sticker_type.toStr then Except.ok p
  else Except.error "metadata has been tampered"

/-- `model_validate_json` on the raw index: field validation (the
sticker-type literal) followed by the integrity validator.  Any failure is
the caller-visible `Corrupted` outcome. -/
def load (r : RawIndex) : Except String StickerPack :=
  match parseStickerType r.sticker_type with
  | none => Except.error "validation error"
  | some st => validate_lock_ns ⟨r.title, r.name, st, r.operator_id, r.lock_ns, r.emotes⟩

/-- A single-byte mutation: position `i` of `s` replaced by a different
character. -/
def IsByteMutation (s t : String) : Prop :=
  ∃ i c, i < s.data.length ∧ c ≠ s.data.getD i c ∧ t = String.mk (s.data.set i c)

theorem getD_set_self (l : List Char) (i : Nat) (c d : Char) (h : i < l.length) :
    (l.set i c).getD i d = c := by
  induction l generalizing i with
  | nil => simp at h
  | cons a as ih =>
    cases i with
    | zero => rfl
    | succ j =>
      simp only [List.set, List.getD, List.length_cons] at h ⊢
      exact ih j (by omega)

theorem byteMutation_ne (s t : String) (h : IsByteMutation s t) :
    t ≠ s ∧ t.data.length = s.data.length := by
  obtain ⟨i, c, hi, hc, rfl⟩ := h
  constructor
  · intro he
    have hd : s.data.set i c = s.data := congrArg String.data he
    have hg := getD_set_self s.data i c c hi
    rw [hd] at hg
    exact hc hg.symm
  · simp [List.length_set]

theorem parse_toStr (st : StickerType) : parseStickerType st.toStr = some st := by
  cases st <;> decide

theorem parse_eq_some (s : String) (st : StickerType) (h : parseStickerType s = some st) :
    st.toStr = s := by
  unfold parseStickerType at h
  by_cases h1 : s = "mask"
  · rw [if_pos h1] at h
    cases h
    rw [h1]
    rfl
  · rw [if_neg h1] at h
    by_cases h2 : s = "regular"
    · rw [if_pos h2] at h
      cases h
      rw [h2]
      rfl
    · rw [if_neg h2] at h
      by_cases h3 : s = "custom_emoji"
      · rw [if_pos h3] at h
        cases h
        rw [h3]
        rfl
      · rw [if_neg h3] at h
        cases h

/-- C2: integrity round-trip and tamper-evidence.  Loading the saved
serialization of `create(title, name, sticker_type, operator_id)` yields the
created pack; every pack that loads successfully satisfies `lock_ns =
HMAC-SHA256(key = operator_id, message = name ++ ":" ++ sticker_type)` and
is returned with its raw fields unchanged (a mismatch is rejected with the
tampering error, never auto-repaired); any single-byte mutation of the
serialized `lock_ns` or of `sticker_type` makes `load` fail, and a
single-byte mutation of `name` makes `load` fail unless the mutated name
yields an HMAC-SHA256 collision for this key (the cryptographic assumption
under which the spec's two formulations are equivalent). -/
theorem C2_integrity_roundtrip :
    (∀ (title name : String) (st : StickerType) (op : String),
      load (save (StickerPack.create title name st op)) =
        Except.ok (StickerPack.create title name st op)) ∧
    (∀ (r : RawIndex) (p : StickerPack), load r = Except.ok p →
      p.lock_ns = generate_lock_ns p.operator_id p.name p.sticker_type.toStr ∧
      p.title = r.title ∧ p.name = r.name ∧ p.sticker_type.toStr = r.sticker_type ∧
      p.operator_id = r.operator_id ∧ p.lock_ns = r.lock_ns ∧ p.emotes = r.emotes) ∧
    (∀ (r : RawIndex) (st : StickerType), parseStickerType r.sticker_type = some st →
      r.lock_ns ≠ generate_lock_ns r.operator_id r.name st.toStr →
      load r = Except.error "metadata has been tampered") ∧
    (∀ (title name : String) (st : StickerType) (op : String) (l2 : String),
      IsByteMutation (StickerPack.create title name st op).lock_ns l2 →
      load { save (StickerPack.create title name st op) with lock_ns := l2 } =
        Except.error "metadata has been tampered") ∧
    (∀ (title name : String) (st : StickerType) (op : String) (t2 : String),
      IsByteMutation st.toStr t2 →
      load { save (StickerPack.create title name st op) with sticker_type := t2 } =
        Except.error "validation error") ∧
    (∀ (title name : String) (st : StickerType) (op : String) (n2 : String),
      IsByteMutation name n2 →
      load { save (StickerPack.create title name st op) with name := n2 } =
          Except.error "metadata has been tampered" ∨
        generate_lock_ns op n2 st.toStr = generate_lock_ns op name st.toStr) := by
  refine ⟨?_, ?_, ?_, ?_, ?_, ?_⟩
  · intro title name st op
    unfold load
    have hst : (save (StickerPack.create title name st op)).sticker_type = st.toStr := rfl
    rw [hst, parse_toStr]
    unfold validate_lock_ns
    dsimp only [save, StickerPack.create]
    rw [if_pos rfl]
  · intro r p h
    unfold load at h
    cases hp : parseStickerType r.sticker_type with
    | none => rw [hp] at h; cases h
    | some st =>
      rw [hp] at h
      unfold validate_lock_ns at h
      dsimp only at h
      by_cases hcnd : r.lock_ns = generate_lock_ns r.operator_id r.name st.toStr
      · rw [if_pos hcnd] at h
        cases h
        exact ⟨hcnd, rfl, rfl, parse_eq_some _ st hp, rfl, rfl, rfl⟩
      · rw [if_neg hcnd] at h
        cases h
  · intro r st hp hmm
    unfold load
    rw [hp]
    unfold validate_lock_ns
    dsimp only
    rw [if_neg hmm]
  · intro title name st op l2 hmut
    obtain ⟨hne, _⟩ := byteMutation_ne _ _ hmut
    unfold load
    have hst : ({ save (StickerPack.create title name st op) with
        lock_ns := l2 } : RawIndex).sticker_type = st.toStr := rfl
    rw [hst, parse_toStr]
    unfold validate_lock_ns
    dsimp only [save, StickerPack.create]
    rw [if_neg (show l2 ≠ generate_lock_ns op name st.toStr from hne)]
  · intro title name st op t2 hmut
    obtain ⟨hne, hlen⟩ := byteMutation_ne _ _ hmut
    have hparse : parseStickerType t2 = none := by
      cases st with
      | mask =>
        have hm : t2 ≠ "mask" := hne
        have hr : t2 ≠ "regular" := by
          intro hx; rw [hx] at hlen; revert hlen; decide
        have hcu : t2 ≠ "custom_emoji" := by
          intro hx; rw [hx] at hlen; revert hlen; decide
        unfold parseStickerType
        rw [if_neg hm, if_neg hr, if_neg hcu]
      | regular =>
        have hr : t2 ≠ "regular" := hne
        have hm : t2 ≠ "mask" := by
          intro hx; rw [hx] at hlen; revert hlen; decide
        have hcu : t2 ≠ "custom_emoji" := by
          intro hx; rw [hx] at hlen; revert hlen; decide
        unfold parseStickerType
        rw [if_neg hm, if_neg hr, if_neg hcu]
      | custom_emoji =>
        have hcu : t2 ≠ "custom_emoji" := hne
        have hm : t2 ≠ "mask" := by
          intro hx; rw [hx] at hlen; revert hlen; decide
        have hr : t2 ≠ "regular" := by
          intro hx; rw [hx] at hlen; revert hlen; decide
        unfold parseStickerType
        rw [if_neg hm, if_neg hr, if_neg hcu]
    unfold load
    have hst : ({ save (StickerPack.create title name st op) with
        sticker_type := t2 } : RawIndex).sticker_type = t2 := rfl
    rw [hst, hparse]
  · intro title name st op n2 hmut
    by_cases hcoll : generate_lock_ns op n2 st.toStr = generate_lock_ns op name st.toStr
    · exact Or.inr hcoll
    · refine Or.inl ?_
      unfold load
      have hst : ({ save (StickerPack.create title name st op) with
          name := n2 } : RawIndex).sticker_type = st.toStr := rfl
      rw [hst, parse_toStr]
      unfold validate_lock_ns
      dsimp only [save, StickerPack.create]
      rw [if_neg (show generate_lock_ns op name st.toStr ≠ generate_lock_ns op n2 st.toStr
        from fun he => hcoll he.symm)]

set_option maxRecDepth 20000 in
/-- Witness for C2: flipping the first byte of the stored tag is rejected as
tampering, and flipping one byte of the serialized sticker type fails
validation. -/
theorem C2_integrity_roundtrip_witness :
    load { save (StickerPack.create "Title" "mypack" StickerType.regular "123456789") with
        lock_ns := String.mk
          ((StickerPack.create "Title" "mypack" StickerType.regular
            "123456789").lock_ns.data.set 0 'z') } =
      Except.error "metadata has been tampered" ∧
    load { save (StickerPack.create "Title" "mypack" StickerType.regular "123456789") with
        sticker_type := String.mk ("regular".data.set 0 'x') } =
      Except.error "validation error" :=
  ⟨C2_integrity_roundtrip.2.2.2.1 "Title" "mypack" .regular "123456789" _
      ⟨0, 'z', by decide, by decide, rfl⟩,
    C2_integrity_roundtrip.2.2.2.2.1 "Title" "mypack" .regular "123456789" _
      ⟨0, 'x', by decide, by decide, rfl⟩⟩

end TSticker
